import Mathlib

/-!
Verification development for the record service of the papercut backend
(`src/services/record.service.ts`).

The TypeScript service is shallowly embedded: JavaScript runtime values are
modelled by the inductive `JsValue`, the database tables touched by the record
workflow are modelled as lists of rows inside `ServiceState`, and each service
method becomes a pure Lean function returning `Except AppError _` (an
`AppError` carries the HTTP status code and message thrown by the service).

Modelling conventions, stated once here:
* JavaScript numbers are restricted to the integer fragment (`JsValue.num`
  carries an `Int`; the separate constructor `JsValue.nan` models `NaN`).
  `parseFloat` and `Number(...)` are modelled on integer-shaped strings; no
  verified claim depends on fractional parsing.
* JavaScript `Date` parsing is modelled by a decidable ISO-date shape test on
  strings; the ISO rendering of a non-string epoch value is an injective
  placeholder. No verified claim depends on date semantics beyond determinism.
* External effects (the `pdf.js-extract` library, the filesystem, activity
  logging and notifications) are not part of the verified core: the outcome of
  `extractPdfContent` is passed in as an explicit `Except` parameter, and
  post-commit logging/notification calls are dropped since they do not change
  the rows the claims speak about.
-/

/-- Model of a JavaScript runtime value, restricted to the integer fragment of
JS numbers. `nan` is the number `NaN`; `arr`/`obj` model arrays and plain
objects (an object is a list of key/value pairs with distinct keys). -/
inductive JsValue where
  | undefined : JsValue
  | null : JsValue
  | bool : Bool → JsValue
  | num : Int → JsValue
  | nan : JsValue
  | str : String → JsValue
  | arr : List JsValue → JsValue
  | obj : List (String × JsValue) → JsValue
deriving Repr

/-- Property lookup on an object key list (first match, as in a JS object). -/
def lookupObj (fields : List (String × JsValue)) (key : String) : Option JsValue :=
  match fields.find? (fun p => p.1 == key) with
  | some p => some p.2
  | none => none

/-- `v[key]` property access: `undefined` on absent keys and on non-objects
(the service only accesses properties of values already known to be truthy,
so the `null`/`undefined` TypeError path is never reached). -/
def JsValue.get (v : JsValue) (key : String) : JsValue :=
  match v with
  | .obj fields =>
    match lookupObj fields key with
    | some w => w
    | none => .undefined
  | _ => .undefined

/-- JS truthiness: `undefined`, `null`, `false`, `0`, `NaN` and `""` are falsy;
every array and object (including empty ones) is truthy. -/
def JsValue.truthy : JsValue → Bool
  | .undefined => false
  | .null => false
  | .bool b => b
  | .num n => n != 0
  | .nan => false
  | .str s => s != ""
  | .arr _ => true
  | .obj _ => true

/-- `typeof v` (note `typeof null === "object"` and `typeof NaN === "number"`). -/
def JsValue.typeofStr : JsValue → String
  | .undefined => "undefined"
  | .null => "object"
  | .bool _ => "boolean"
  | .num _ => "number"
  | .nan => "number"
  | .str _ => "string"
  | .arr _ => "object"
  | .obj _ => "object"

/-- `Object.keys(v).length`: property count for objects, index count for
arrays and strings, `0` for primitives. -/
def JsValue.keysCount : JsValue → Nat
  | .obj fields => fields.length
  | .arr xs => xs.length
  | .str s => s.length
  | _ => 0

/-- Strict equality with `undefined`. -/
def JsValue.isUndef : JsValue → Bool
  | .undefined => true
  | _ => false

/-- Strict equality with `null`. -/
def JsValue.isNull : JsValue → Bool
  | .null => true
  | _ => false

/-- Strict equality with the empty string `""`. -/
def JsValue.isEmptyStr : JsValue → Bool
  | .str s => s == ""
  | _ => false

/-- An `AppError(status, message)` thrown by the service. -/
structure AppError where
  status : Nat
  message : String
deriving Repr, DecidableEq

/-- A cabinet custom-field definition (`ExtendedCustomField` in the source):
id, display name, type tag, mandatory flag and optional character limit. -/
structure CustomField where
  id : Nat
  name : String
  type : String
  isMandatory : Bool
  characterLimit : Option Nat
deriving Repr, DecidableEq

/-- A validated `{fieldId, type, value}` triple (`CustomFieldValue`). -/
structure ValidatedField where
  fieldId : Nat
  type : String
  value : JsValue
deriving Repr

/-- `submittedFields[field.id]`: JS object indexing yields `undefined` for an
absent key. A submission is modelled as a key/value list with distinct keys. -/
def jsLookup (submitted : List (Nat × JsValue)) (i : Nat) : JsValue :=
  match submitted.find? (fun p => p.1 == i) with
  | some p => p.2
  | none => .undefined

/-- JS `String.prototype.trim`: drop leading and trailing whitespace. Defined
by structural recursion over the character list so that it reduces inside the
kernel (the core `String.trim` is implemented with well-founded recursion on
substring positions and does not). -/
def jsTrim (s : String) : String :=
  String.mk (((s.data.dropWhile Char.isWhitespace).reverse.dropWhile
    Char.isWhitespace).reverse)

/-- Single-quote character, used to build the error messages of the source. -/
def squote : String := String.singleton (Char.ofNat 39)

/-- The message of `AppError(400, "Field '<name>' is mandatory")`. -/
def mandatoryMsg (name : String) : String :=
  "Field " ++ squote ++ name ++ squote ++ " is mandatory"

/-- Presence test for a mandatory non-Attachment field (record.service.ts line
480): `submittedField !== undefined && submittedField !== null &&
submittedField !== ''`. -/
def hasValueNonAttachment (v : JsValue) : Bool :=
  !v.isUndef && !v.isNull && !v.isEmptyStr

/-- Presence test for a mandatory Attachment field (record.service.ts lines
466-468): `submittedField && ((submittedField.value &&
Object.keys(submittedField.value).length > 0) || (typeof submittedField ===
'object' && (submittedField.filePath || submittedField.fileName)))`. -/
def attachmentHasValidValue (v : JsValue) : Bool :=
  v.truthy &&
    (((v.get "value").truthy && (v.get "value").keysCount > 0) ||
     (v.typeofStr == "object" &&
       ((v.get "filePath").truthy || (v.get "fileName").truthy)))

/-- The unwrapping at the top of `validateFieldValue`: if the value is a
non-null object then use its `value` property when that is not `undefined`,
otherwise the value itself. -/
def jsActual (v : JsValue) : JsValue :=
  if v.typeofStr == "object" && !v.isNull then
    match v.get "value" with
    | .undefined => v
    | inner => inner
  else v

/-- The second unwrapping in the `Text Only` branch: `typeof v === 'object' &&
v !== null && 'value' in v` uses the `in` operator, so an explicitly present
`value: undefined` key is unwrapped to `undefined` here. -/
def textOnlyUnwrap (v : JsValue) : JsValue :=
  match v with
  | .obj fields =>
    match lookupObj fields "value" with
    | some inner => inner
    | none => .obj fields
  | w => w

/-- `field.characterLimit && s.length > field.characterLimit` (a limit of `0`
is falsy in JS, so it disables the check). -/
def charLimitExceeded (field : CustomField) (s : String) : Bool :=
  match field.characterLimit with
  | some limit => limit != 0 && s.length > limit
  | none => false

/-- Integer fragment of JS `parseFloat` applied to an already-trimmed string:
an optional sign followed by a longest run of leading digits; `none` models
`NaN`. (The source only feeds this the trimmed submitted string.) -/
def jsParseFloatInt (s : String) : Option Int :=
  match s.data with
  | [] => none
  | c :: rest =>
    let signAndDigits : Bool × List Char :=
      if c == '-' then (true, rest)
      else if c == '+' then (false, rest)
      else (false, c :: rest)
    let digits := signAndDigits.2.takeWhile Char.isDigit
    if digits.isEmpty then none
    else
      let n : Nat := digits.foldl (fun a d => a * 10 + (d.toNat - 48)) 0
      some (if signAndDigits.1 then -(n : Int) else (n : Int))

/-- Integer fragment of the JS string-to-number conversion used by
`Number(...)`: the whole (trimmed) string must be a signed digit run. -/
def jsParseIntStrict (s : String) : Option Int :=
  match s.data with
  | [] => none
  | c :: rest =>
    let signAndDigits : Bool × List Char :=
      if c == '-' then (true, rest)
      else if c == '+' then (false, rest)
      else (false, c :: rest)
    if !signAndDigits.2.isEmpty && signAndDigits.2.all Char.isDigit then
      let n : Nat := signAndDigits.2.foldl (fun a d => a * 10 + (d.toNat - 48)) 0
      some (if signAndDigits.1 then -(n : Int) else (n : Int))
    else none

/-- `Number(v)` on the integer fragment; `none` models `NaN`. Arrays follow the
one-element unwrapping of JS ToNumber; multi-element arrays are `NaN`. -/
def jsToNumber : JsValue → Option Int
  | .undefined => none
  | .null => some 0
  | .bool b => some (if b then 1 else 0)
  | .num n => some n
  | .nan => none
  | .str s =>
    let t := jsTrim s
    if t == "" then some 0 else jsParseIntStrict t
  | .arr [] => some 0
  | .arr [v] => jsToNumber v
  | .arr (_ :: _ :: _) => none
  | .obj _ => none

/-- Simplified decidable model of "this string parses as a JS date": the
ISO shape `YYYY-MM-DD` as a leading pattern. No verified claim depends on the
exact set of parseable date strings. -/
def jsIsParseableDateString (s : String) : Bool :=
  let cs := s.data
  decide (cs.length ≥ 10) &&
    (cs.take 4).all Char.isDigit &&
    (cs.getD 4 ' ' == '-') &&
    ((cs.drop 5).take 2).all Char.isDigit &&
    (cs.getD 7 ' ' == '-') &&
    ((cs.drop 8).take 2).all Char.isDigit

/-- `new Date(v).getTime()` on the modelled fragment; `none` models an invalid
date. For parseable strings the concrete epoch value is abstracted to `0`,
which is sound for the service because the string branch only tests validity
and returns the original string verbatim. -/
def jsDateMillis : JsValue → Option Int
  | .str s => if jsIsParseableDateString s then some 0 else none
  | .num n => some n
  | .nan => none
  | .bool b => some (if b then 1 else 0)
  | .null => some 0
  | .undefined => none
  | .arr _ => none
  | .obj _ => none

/-- Placeholder for `Date.prototype.toISOString` of an epoch value: injective
and deterministic; no verified claim reads its concrete form. -/
def jsToISOString (millis : Int) : String :=
  "iso-of-epoch-" ++ toString millis

/-- Shallow embedding of `RecordService.validateFieldValue` (record.service.ts
lines 518-635): per-type coercion and validation of one submitted value. -/
def validateFieldValue (value : JsValue) (field : CustomField) :
    Except AppError JsValue :=
  if value.isUndef || value.isNull then .ok .null
  else
    let actualValue := jsActual value
    match field.type with
    | "Text/Number with Special Symbols" =>
      if actualValue.isNull || actualValue.isUndef || actualValue.isEmptyStr then
        .ok .null
      else
        let stringValue : JsValue :=
          match actualValue with
          | .num n => .str (toString n)
          | .nan => .str "NaN"
          | w => w
        match stringValue with
        | .str s =>
          if charLimitExceeded field s then
            .error ⟨400, "Field " ++ squote ++ field.name ++ squote ++
              " exceeds character limit of " ++
              toString ((field.characterLimit).getD 0)⟩
          else .ok (.str s)
        | _ =>
          .error ⟨400, "Field " ++ squote ++ field.name ++ squote ++
            " must be text, number or special symbols"⟩
    | "Text Only" =>
      match textOnlyUnwrap actualValue with
      | .str s =>
        if charLimitExceeded field s then
          .error ⟨400, "Field " ++ squote ++ field.name ++ squote ++
            " exceeds character limit of " ++
            toString ((field.characterLimit).getD 0)⟩
        else .ok (.str s)
      | _ =>
        .error ⟨400, "Field " ++ squote ++ field.name ++ squote ++ " must be text"⟩
    | "Number Only" =>
      if actualValue.isNull || actualValue.isUndef || actualValue.isEmptyStr then
        .ok .null
      else
        match actualValue with
        | .num n => .ok (.num n)
        | .nan =>
          .error ⟨400, "Field " ++ squote ++ field.name ++ squote ++
            " must be a valid number"⟩
        | .str s =>
          match jsParseFloatInt (jsTrim s) with
          | some n => .ok (.num n)
          | none =>
            .error ⟨400, "Field " ++ squote ++ field.name ++ squote ++
              " must be a valid number"⟩
        | _ =>
          .error ⟨400, "Field " ++ squote ++ field.name ++ squote ++
            " must be a valid number"⟩
    | "Currency" =>
      match jsToNumber actualValue with
      | some n => .ok (.num n)
      | none =>
        .error ⟨400, "Field " ++ squote ++ field.name ++ squote ++
          " must be a valid currency amount"⟩
    | "Date" | "Time" | "Time and Date" =>
      match actualValue with
      | .str s =>
        if jsIsParseableDateString s then .ok (.str s)
        else
          .error ⟨400, "Field " ++ squote ++ field.name ++ squote ++
            " must be a valid date/time"⟩
      | w =>
        match jsDateMillis w with
        | some m => .ok (.str (jsToISOString m))
        | none =>
          .error ⟨400, "Field " ++ squote ++ field.name ++ squote ++
            " must be a valid date/time"⟩
    | "Yes/No" =>
      match actualValue with
      | .bool b => .ok (.bool b)
      | _ =>
        .error ⟨400, "Field " ++ squote ++ field.name ++ squote ++
          " must be a boolean"⟩
    | "Tags/Labels" =>
      match actualValue with
      | .arr xs => .ok (.arr xs)
      | _ =>
        .error ⟨400, "Field " ++ squote ++ field.name ++ squote ++
          " must be an array of tags"⟩
    | "Attachment" =>
      if !actualValue.truthy || actualValue.typeofStr != "object" then
        .error ⟨400, "Field " ++ squote ++ field.name ++ squote ++
          " must be a valid file upload"⟩
      else if !(actualValue.get "fileName").truthy ||
          !(actualValue.get "filePath").truthy then
        .error ⟨400, "Field " ++ squote ++ field.name ++ squote ++
          " is missing required file information"⟩
      else .ok actualValue
    | _ => .ok actualValue

/-- The per-field loop body of `RecordService.validateCustomFields`
(record.service.ts lines 454-513), processing the remaining schema fields and
accumulating the validated entries in insertion order. -/
def validateFieldsGo (submitted : List (Nat × JsValue)) :
    List CustomField → List (Nat × ValidatedField) →
    Except AppError (List (Nat × ValidatedField))
  | [], acc => .ok acc
  | field :: rest, acc =>
    let sub := jsLookup submitted field.id
    if field.isMandatory && field.type == "Attachment" &&
        !attachmentHasValidValue sub then
      .error ⟨400, mandatoryMsg field.name⟩
    else if field.isMandatory && field.type != "Attachment" &&
        !hasValueNonAttachment sub then
      .error ⟨400, mandatoryMsg field.name⟩
    else if field.type == "Attachment" then
      if sub.truthy then
        validateFieldsGo submitted rest
          (acc ++ [(field.id, ⟨field.id, field.type, sub⟩)])
      else validateFieldsGo submitted rest acc
    else
      if !sub.isUndef then
        match validateFieldValue sub field with
        | .error e => .error e
        | .ok v =>
          validateFieldsGo submitted rest
            (acc ++ [(field.id, ⟨field.id, field.type, v⟩)])
      else validateFieldsGo submitted rest acc

/-- Shallow embedding of `RecordService.validateCustomFields`
(record.service.ts lines 447-516). The output object is modelled as the list
of `(fieldId, triple)` entries in insertion order; schema ids are distinct in
every cabinet, so list append coincides with JS object assignment. -/
def validateCustomFields (submitted : List (Nat × JsValue))
    (cabinetFields : List CustomField) :
    Except AppError (List (Nat × ValidatedField)) :=
  validateFieldsGo submitted cabinetFields []

/-- `RecordStatus` enumeration of the record model. -/
inductive RecordStatus where
  | draft
  | pending
  | approved
  | rejected
  | archived
deriving Repr, DecidableEq

/-- A row of the records table. File-descriptor columns hold `JsValue`s since
`createRecord` copies them out of an arbitrary submitted attachment value
(absent properties persist as `undefined`/NULL). -/
structure RecordRow where
  id : Nat
  title : String
  description : JsValue
  cabinetId : Nat
  creatorId : String
  status : RecordStatus
  customFields : List (Nat × ValidatedField)
  tags : List String
  version : Nat
  fileName : JsValue
  filePath : JsValue
  fileSize : JsValue
  fileType : JsValue
  fileHash : JsValue
  isTemplate : Bool
  isActive : Bool
  lastModifiedBy : String
deriving Repr

/-- A row of the record_versions table (the linear file-revision history). -/
structure RecordVersionRow where
  id : Nat
  recordId : Nat
  version : Nat
  fileName : String
  fileSize : Nat
  fileType : String
  filePath : String
  fileHash : String
  uploadedBy : String
  note : Option String
deriving Repr, DecidableEq

/-- A row of the record other-version table (`RecordOtherVersion`): a full
snapshot of the record state taken by `modifyRecord`, with its own version
counter. -/
structure RecordOtherVersionRow where
  id : Nat
  originalRecordId : Nat
  title : String
  description : JsValue
  cabinetId : Nat
  creatorId : String
  customFields : List (Nat × ValidatedField)
  status : RecordStatus
  tags : List String
  isTemplate : Bool
  isActive : Bool
  lastModifiedBy : String
  version : Nat
  fileName : Option String
  filePath : Option String
  fileSize : Option Nat
  fileType : Option String
  fileHash : Option String
deriving Repr

/-- A cabinet row: custom-field schema, approver user ids and owner. -/
structure CabinetRow where
  id : Nat
  name : String
  customFields : List CustomField
  approvers : List String
  createdById : String
deriving Repr

/-- A cabinet_members row. -/
structure CabinetMemberRow where
  cabinetId : Nat
  userId : String
  role : String
deriving Repr, DecidableEq

/-- A record_note_comments row. -/
structure NoteRow where
  id : Nat
  recordId : Nat
  content : String
  type : String
  action : Option String
  createdBy : String
deriving Repr, DecidableEq

/-- The result shape of the PDF content extractor
(`PdfExtractResult` in the source). -/
structure PdfExtractResult where
  extractedText : String
  extractedFields : List (String × String)
  pageCount : Nat
deriving Repr, DecidableEq

/-- The part of an `Express.Multer.File` the service reads. -/
structure MulterFile where
  originalname : String
  size : Nat
  mimetype : String
deriving Repr, DecidableEq

/-- A pdf_files row created by `createRecord` (disk paths abstracted away). -/
structure PdfFileRow where
  recordId : Nat
  originalFileName : String
  fileSize : Nat
  fileHash : String
  pageCount : Nat
  extractedText : String
  extractedFields : List (String × String)
deriving Repr, DecidableEq

/-- The database state seen by the record service, plus a fresh-id counter for
newly inserted rows. -/
structure ServiceState where
  records : List RecordRow
  versions : List RecordVersionRow
  otherVersions : List RecordOtherVersionRow
  cabinets : List CabinetRow
  users : List String
  members : List CabinetMemberRow
  notes : List NoteRow
  pdfFiles : List PdfFileRow
  nextId : Nat

/-- `Record.findByPk(recordId)`. -/
def findRecord (records : List RecordRow) (recordId : Nat) : Option RecordRow :=
  records.find? (fun r => r.id == recordId)

/-- `Cabinet.findByPk(cabinetId)`. -/
def findCabinet (cabinets : List CabinetRow) (cabinetId : Nat) : Option CabinetRow :=
  cabinets.find? (fun c => c.id == cabinetId)

/-- `record.update(...)`: apply `f` to the row with the given primary key. -/
def updateRecordRow (records : List RecordRow) (recordId : Nat)
    (f : RecordRow → RecordRow) : List RecordRow :=
  records.map (fun r => if r.id == recordId then f r else r)

/-- The `RecordVersion` rows belonging to a record. -/
def versionsFor (st : ServiceState) (recordId : Nat) : List RecordVersionRow :=
  st.versions.filter (fun v => v.recordId == recordId)

/-- Left fold keeping the row with the strictly largest version (the first such
row on ties), over an already-filtered row list. -/
def foldMaxRow (rows : List RecordVersionRow) : Option RecordVersionRow :=
  rows.foldl
    (fun acc v =>
      match acc with
      | none => some v
      | some w => if w.version < v.version then some v else some w)
    none

/-- `RecordVersion.findOne({where: {recordId}, order: [['version','DESC']]})`:
the row with the maximal version number among the record's versions. -/
def latestVersionFor (versions : List RecordVersionRow) (recordId : Nat) :
    Option RecordVersionRow :=
  foldMaxRow (versions.filter (fun v => v.recordId == recordId))

/-- Same fold for `RecordOtherVersion` rows. -/
def foldMaxOtherRow (rows : List RecordOtherVersionRow) :
    Option RecordOtherVersionRow :=
  rows.foldl
    (fun acc v =>
      match acc with
      | none => some v
      | some w => if w.version < v.version then some v else some w)
    none

/-- `RecordOtherVersion.findOne({where: {originalRecordId}, order:
[['version','DESC']]})`. -/
def latestOtherVersionFor (rows : List RecordOtherVersionRow)
    (originalRecordId : Nat) : Option RecordOtherVersionRow :=
  foldMaxOtherRow (rows.filter (fun v => v.originalRecordId == originalRecordId))

/-- The `versionData` argument of `createNewVersion`. -/
structure VersionData where
  fileName : String
  fileSize : Nat
  fileType : String
  filePath : String
  fileHash : String
  uploadedBy : String
  note : Option String
deriving Repr

/-- `latestVersion ? latestVersion.version + 1 : 1` (record.service.ts line
897): the next version number for a record. -/
def nextVersionNumber (st : ServiceState) (recordId : Nat) : Nat :=
  match latestVersionFor st.versions recordId with
  | none => 1
  | some latest => latest.version + 1

/-- The `RecordVersion.create` payload of `createNewVersion`
(record.service.ts lines 900-904). -/
def newVersionRow (st : ServiceState) (recordId : Nat) (vd : VersionData) :
    RecordVersionRow :=
  { id := st.nextId
    recordId := recordId
    version := nextVersionNumber st recordId
    fileName := vd.fileName
    fileSize := vd.fileSize
    fileType := vd.fileType
    filePath := vd.filePath
    fileHash := vd.fileHash
    uploadedBy := vd.uploadedBy
    note := vd.note }

/-- The `record.update` of `createNewVersion` (record.service.ts lines
907-915): mirror the new file descriptor and version number onto the record. -/
def mirrorVersionOnRecord (vd : VersionData) (n : Nat) (r : RecordRow) :
    RecordRow :=
  { r with
    filePath := .str vd.filePath
    fileName := .str vd.fileName
    fileSize := .num (vd.fileSize : Int)
    fileType := .str vd.fileType
    fileHash := .str vd.fileHash
    version := n
    lastModifiedBy := vd.uploadedBy }

/-- The state after a successful `createNewVersion` call: version row
appended, record row mirrored. -/
def afterNewVersion (st : ServiceState) (recordId : Nat) (vd : VersionData) :
    ServiceState :=
  { st with
    versions := st.versions ++ [newVersionRow st recordId vd]
    nextId := st.nextId + 1
    records := updateRecordRow st.records recordId
      (mirrorVersionOnRecord vd (newVersionRow st recordId vd).version) }

/-- Shallow embedding of `RecordService.createNewVersion` (record.service.ts
lines 877-918): next version number is the current maximum plus one (or 1 when
the record has no versions), a new `RecordVersion` row is inserted, and the
record row mirrors the new file descriptor and version number. -/
def createNewVersion (st : ServiceState) (recordId : Nat) (vd : VersionData) :
    Except AppError (ServiceState × RecordVersionRow) :=
  match findRecord st.records recordId with
  | none => .error ⟨404, "Record not found"⟩
  | some _ => .ok (afterNewVersion st recordId vd, newVersionRow st recordId vd)

/-- Sequential composition of `createNewVersion` calls, in call order. -/
def runNewVersions (st : ServiceState) (recordId : Nat) :
    List VersionData → Except AppError ServiceState
  | [] => .ok st
  | vd :: rest =>
    match createNewVersion st recordId vd with
    | .error e => .error e
    | .ok (st2, _) => runNewVersions st2 recordId rest

/-- Shallow embedding of `RecordService.deleteVersion` (record.service.ts lines
941-995): permission is creator or cabinet owner; deleting the sole remaining
version is refused; deleting the currently-active version first promotes the
next-highest remaining version onto the record row. -/
def deleteVersion (st : ServiceState) (recordId versionId : Nat)
    (userId : String) : Except AppError ServiceState :=
  match findRecord st.records recordId with
  | none => .error ⟨404, "Record not found"⟩
  | some record =>
    match findCabinet st.cabinets record.cabinetId with
    | none => .error ⟨404, "Cabinet not found"⟩
    | some cabinet =>
      if record.creatorId != userId && cabinet.createdById != userId then
        .error ⟨403, "You do not have permission to delete this version"⟩
      else
        match st.versions.find? (fun v => v.id == versionId && v.recordId == recordId) with
        | none => .error ⟨404, "Version not found"⟩
        | some version =>
          if (versionsFor st recordId).length == 1 then
            .error ⟨400, "Cannot delete the only version of the record"⟩
          else
            let stPromoted : ServiceState :=
              if version.version == record.version then
                match foldMaxRow (st.versions.filter (fun v =>
                    v.recordId == recordId && v.version < version.version)) with
                | some previousVersion =>
                  { st with records := updateRecordRow st.records recordId (fun r =>
                      { r with
                        filePath := .str previousVersion.filePath
                        fileName := .str previousVersion.fileName
                        fileSize := .num (previousVersion.fileSize : Int)
                        fileType := .str previousVersion.fileType
                        fileHash := .str previousVersion.fileHash
                        version := previousVersion.version
                        lastModifiedBy := userId }) }
                | none => st
              else st
            .ok { stPromoted with
                  versions := stPromoted.versions.filter (fun v => !(v.id == versionId)) }

/-- The `data` argument of `createRecord`. -/
structure CreateRecordData where
  title : String
  cabinetId : Nat
  creatorId : String
  customFields : List (Nat × JsValue)
  status : RecordStatus
  isTemplate : Bool
  isActive : Bool
  tags : List String
  pdfFile : Option MulterFile
deriving Repr

/-- The first attachment value of the validated-fields object
(record.service.ts lines 281-288). JS `for..in` enumerates integer-like keys
in ascending numeric order, so the loop picks, among entries whose type is
`Attachment` and whose value is truthy, the one with the smallest field id. -/
def firstAttachmentValue (validated : List (Nat × ValidatedField)) :
    Option JsValue :=
  ((validated.filter (fun p => p.2.type == "Attachment" && p.2.value.truthy)).foldl
    (fun acc p =>
      match acc with
      | none => some p
      | some q => if p.1 < q.1 then some p else some q)
    none).map (fun p => p.2.value)

/-- `Math.round(size / 1024)` for a byte count: JS rounds half toward positive
infinity, which on naturals is `(size + 512) / 1024` in integer division. -/
def jsRoundKB (size : Nat) : Nat := (size + 512) / 1024

/-- The fixed fallback extraction result built when PDF processing fails
(record.service.ts lines 321-328 and 383-390). -/
def pdfFallback (file : MulterFile) : PdfExtractResult :=
  { extractedText := "PDF text extraction failed"
    extractedFields :=
      [("Document Name", file.originalname),
       ("File Size", toString (jsRoundKB file.size) ++ " KB")]
    pageCount := 1 }

/-- Shallow embedding of `RecordService.processPdfFile` (record.service.ts
lines 376-392). The outcome of the external `extractPdfContent` call is passed
in as `extraction`; the catch-all converts any failure into the fixed fallback
shape, so the function is total (it never raises). -/
def processPdfFile (file : MulterFile)
    (extraction : Except AppError PdfExtractResult) : PdfExtractResult :=
  match extraction with
  | .ok result => result
  | .error _ => pdfFallback file

/-- Shallow embedding of `RecordService.createRecord` (record.service.ts lines
249-371): title validation, cabinet/creator lookup, custom-field validation,
mirroring of the first attachment file info, insertion of the record row at
version 1, and opportunistic creation of a `PdfFile` row. Note that no
`RecordVersion` row is created here. -/
def createRecord (st : ServiceState) (data : CreateRecordData)
    (extraction : Except AppError PdfExtractResult) :
    Except AppError (ServiceState × RecordRow) :=
  if jsTrim data.title == "" then .error ⟨400, "Record title is required"⟩
  else
    match findCabinet st.cabinets data.cabinetId with
    | none => .error ⟨400, "Cabinet not found"⟩
    | some cabinet =>
      if !(st.users.contains data.creatorId) then .error ⟨400, "Creator not found"⟩
      else
        match validateCustomFields data.customFields cabinet.customFields with
        | .error e => .error e
        | .ok validatedFields =>
          let fileInfo := firstAttachmentValue validatedFields
          let record : RecordRow :=
            { id := st.nextId
              title := jsTrim data.title
              description := .undefined
              cabinetId := data.cabinetId
              creatorId := data.creatorId
              status := data.status
              customFields := validatedFields
              tags := data.tags
              version := 1
              fileName := match fileInfo with | some fi => fi.get "fileName" | none => .undefined
              filePath := match fileInfo with | some fi => fi.get "filePath" | none => .undefined
              fileSize := match fileInfo with | some fi => fi.get "fileSize" | none => .undefined
              fileType := match fileInfo with | some fi => fi.get "fileType" | none => .undefined
              fileHash := match fileInfo with | some fi => fi.get "fileHash" | none => .undefined
              isTemplate := data.isTemplate
              isActive := data.isActive
              lastModifiedBy := data.creatorId }
          let st1 : ServiceState :=
            { st with records := st.records ++ [record], nextId := st.nextId + 1 }
          let st2 : ServiceState :=
            match data.pdfFile with
            | none => st1
            | some pf =>
              let pdfData :=
                match extraction with
                | .ok d => d
                | .error _ => pdfFallback pf
              { st1 with pdfFiles := st1.pdfFiles ++
                  [{ recordId := record.id
                     originalFileName := pf.originalname
                     fileSize := pf.size
                     fileHash := "N/A"
                     pageCount := pdfData.pageCount
                     extractedText := pdfData.extractedText
                     extractedFields := pdfData.extractedFields }] }
          .ok (st2, record)

/-- The `data` argument of `modifyRecord` (`ModifyRecordData` in the source). -/
structure ModifyRecordData where
  recordId : Nat
  title : String
  cabinetId : Nat
  creatorId : String
  customFields : List (Nat × JsValue)
  status : RecordStatus
  tags : List String
  pdfFile : Option MulterFile
deriving Repr

/-- Shallow embedding of `RecordService.modifyRecord` (record.service.ts lines
1174-1299): validates fields against the current cabinet schema, computes the
next snapshot version as max existing snapshot version plus one (2 when none
exist), and inserts a `RecordOtherVersion` snapshot. The original record row is
never updated. -/
def modifyRecord (st : ServiceState) (data : ModifyRecordData)
    (extraction : Except AppError PdfExtractResult) :
    Except AppError (ServiceState × RecordOtherVersionRow) :=
  match findRecord st.records data.recordId with
  | none => .error ⟨404, "Record not found"⟩
  | some originalRecord =>
    match findCabinet st.cabinets data.cabinetId with
    | none => .error ⟨400, "Cabinet not found"⟩
    | some cabinet =>
      if !(st.users.contains data.creatorId) then .error ⟨400, "Creator not found"⟩
      else
        match validateCustomFields data.customFields cabinet.customFields with
        | .error e => .error e
        | .ok validatedFields =>
          let newVersion :=
            match latestOtherVersionFor st.otherVersions data.recordId with
            | none => 2
            | some latest => latest.version + 1
          let pdfFileInfo : Option (String × Nat × String × Nat) :=
            match data.pdfFile with
            | none => none
            | some pf =>
              let pdfData :=
                match extraction with
                | .ok d => d
                | .error _ => pdfFallback pf
              some (pf.originalname, pf.size, pf.mimetype, pdfData.pageCount)
          let snapshot : RecordOtherVersionRow :=
            { id := st.nextId
              originalRecordId := data.recordId
              title := jsTrim data.title
              description := originalRecord.description
              cabinetId := data.cabinetId
              creatorId := data.creatorId
              customFields := validatedFields
              status := data.status
              tags := data.tags
              isTemplate := originalRecord.isTemplate
              isActive := originalRecord.isActive
              lastModifiedBy := data.creatorId
              version := newVersion
              fileName := pdfFileInfo.map (fun p => p.1)
              filePath := pdfFileInfo.map (fun p => p.1)
              fileSize := pdfFileInfo.map (fun p => p.2.1)
              fileType := pdfFileInfo.map (fun p => p.2.2.1)
              fileHash := pdfFileInfo.map (fun _ => "N/A") }
          .ok ({ st with
                 otherVersions := st.otherVersions ++ [snapshot]
                 nextId := st.nextId + 1 },
               snapshot)

/-- Whether the caller passes the authorization check of `rejectRecord`
(record.service.ts lines 1390-1399): cabinet approver, or a cabinet member
with role `member_full`. -/
def canReject (st : ServiceState) (cabinet : CabinetRow) (recordCabinetId : Nat)
    (userId : String) : Bool :=
  cabinet.approvers.contains userId ||
    st.members.any (fun m =>
      m.cabinetId == recordCabinetId && m.userId == userId &&
        m.role == "member_full")

/-- Shallow embedding of `RecordService.rejectRecord` (record.service.ts lines
1376-1492). The authorization check runs before the pending-status check. The
`data` partial update is modelled as a row function whose `status` and
`lastModifiedBy` results are overwritten, as the source spread does. -/
def rejectRecord (st : ServiceState) (recordId : Nat) (userId : String)
    (comments : Option String) (upd : RecordRow → RecordRow) :
    Except AppError ServiceState :=
  match findRecord st.records recordId with
  | none => .error ⟨404, "Record or cabinet not found"⟩
  | some record =>
    -- The source first loads the record with its cabinet included
    -- (`!record || !record.cabinet`), then issues `Cabinet.findByPk` on the
    -- same key; both are the one lookup below.
    match findCabinet st.cabinets record.cabinetId with
    | none => .error ⟨404, "Record or cabinet not found"⟩
    | some cabinet =>
      if !canReject st cabinet record.cabinetId userId then
        .error ⟨403, "User is not authorized to reject this record"⟩
      else if record.status != RecordStatus.pending then
        .error ⟨400, "Only pending records can be rejected"⟩
      else
        let st1 : ServiceState :=
          { st with records := updateRecordRow st.records recordId (fun r =>
              { upd r with status := RecordStatus.rejected, lastModifiedBy := userId }) }
        match comments with
        | some c =>
          .ok { st1 with
                notes := st1.notes ++
                  [{ id := st1.nextId, recordId := recordId, content := c,
                     type := "comment", action := some "reject",
                     createdBy := userId }]
                nextId := st1.nextId + 1 }
        | none => .ok st1

/-! ### Concrete fixtures used by witnesses and counterexamples -/

/-- A cabinet with an empty schema, no approvers, owned by alice. -/
def fxCabinetPlain : CabinetRow := ⟨1, "Finance", [], [], "alice"⟩

/-- The same cabinet with eve as an approver. -/
def fxCabinetEveApprover : CabinetRow := ⟨1, "Finance", [], ["eve"], "alice"⟩

/-- An approved record in cabinet 1 created by alice. -/
def fxRecordApproved : RecordRow :=
  { id := 1, title := "Budget", description := .undefined, cabinetId := 1,
    creatorId := "alice", status := .approved, customFields := [], tags := [],
    version := 1, fileName := .undefined, filePath := .undefined,
    fileSize := .undefined, fileType := .undefined, fileHash := .undefined,
    isTemplate := false, isActive := true, lastModifiedBy := "alice" }

/-- A base state: one approved record, plain cabinet, two users, no versions. -/
def fxBase : ServiceState :=
  { records := [fxRecordApproved], versions := [], otherVersions := [],
    cabinets := [fxCabinetPlain], users := ["alice", "bob"], members := [],
    notes := [], pdfFiles := [], nextId := 10 }

/-- The base state with eve listed as cabinet approver. -/
def fxBaseEveApprover : ServiceState :=
  { fxBase with cabinets := [fxCabinetEveApprover] }

/-- The base state with exactly one `RecordVersion` row for record 1. -/
def fxBaseOneVersion : ServiceState :=
  { fxBase with versions := [⟨5, 1, 1, "f1", 10, "pdf", "/p1", "h1", "bob", none⟩] }

/-- A record-creation payload with a title that trims to `Foo`. -/
def fxCreateFoo : CreateRecordData :=
  ⟨"  Foo  ", 1, "alice", [], .draft, false, true, [], none⟩

/-- A record-creation payload whose title is whitespace only. -/
def fxCreateBlank : CreateRecordData :=
  ⟨"   ", 1, "alice", [], .draft, false, true, [], none⟩

/-- A modify payload for record 1. -/
def fxModify : ModifyRecordData :=
  ⟨1, "Budget v2", 1, "alice", [], .draft, [], none⟩

/-- Sample version payloads for the `createNewVersion` witness. -/
def fxVd1 : VersionData := ⟨"f1", 10, "pdf", "/p1", "h1", "bob", none⟩

/-- A second sample version payload. -/
def fxVd2 : VersionData := ⟨"f2", 2048, "pdf", "/p2", "h2", "bob", none⟩

/-- The record produced by `createRecord fxBase fxCreateFoo`. -/
def fxFooRecord : RecordRow :=
  { id := 10, title := "Foo", description := .undefined, cabinetId := 1,
    creatorId := "alice", status := .draft, customFields := [], tags := [],
    version := 1, fileName := .undefined, filePath := .undefined,
    fileSize := .undefined, fileType := .undefined, fileHash := .undefined,
    isTemplate := false, isActive := true, lastModifiedBy := "alice" }

/-- The state produced by `createRecord fxBase fxCreateFoo`. -/
def fxFooState : ServiceState :=
  { fxBase with records := fxBase.records ++ [fxFooRecord], nextId := 11 }

/-! ### Helper lemmas -/

/-- Membership characterization of a successful `validateFieldsGo` run: every
output entry is either already in the accumulator or stems from a schema field
whose submitted value was defined (and, for `Attachment` fields, truthy and
stored verbatim). -/
theorem validateFieldsGo_mem (s : List (Nat × JsValue)) :
    ∀ (c : List CustomField) (acc res : List (Nat × ValidatedField)),
    validateFieldsGo s c acc = .ok res →
    ∀ p ∈ res, p ∈ acc ∨ ∃ f, f ∈ c ∧ p.1 = f.id ∧ p.2.type = f.type ∧
      (jsLookup s f.id).isUndef = false ∧
      (f.type = "Attachment" →
        p.2.value = jsLookup s f.id ∧ (jsLookup s f.id).truthy = true) := by
  intro c
  induction c with
  | nil =>
    intro acc res h p hp
    simp only [validateFieldsGo] at h
    cases h
    exact Or.inl hp
  | cons field rest ih =>
    intro acc res h p hp
    simp only [validateFieldsGo] at h
    split at h
    · cases h
    · split at h
      · cases h
      · split at h
        · -- Attachment branch
          rename_i hnotmand1 hnotmand2 hatt
          split at h
          · rename_i htruthy
            rcases ih _ _ h p hp with hacc | ⟨f, hf, h1, h2, h3, h4⟩
            · rcases List.mem_append.mp hacc with hold | hnew
              · exact Or.inl hold
              · simp only [List.mem_singleton] at hnew
                subst hnew
                refine Or.inr ⟨field, List.mem_cons_self .., rfl, rfl, ?_, ?_⟩
                · cases hu : (jsLookup s field.id).isUndef
                  · rfl
                  · exfalso
                    have : jsLookup s field.id = .undefined := by
                      cases hv : jsLookup s field.id <;> simp_all [JsValue.isUndef]
                    rw [this] at htruthy
                    simp [JsValue.truthy] at htruthy
                · intro _
                  exact ⟨rfl, htruthy⟩
            · exact Or.inr ⟨f, List.mem_cons_of_mem _ hf, h1, h2, h3, h4⟩
          · rcases ih _ _ h p hp with hacc | ⟨f, hf, h1, h2, h3, h4⟩
            · exact Or.inl hacc
            · exact Or.inr ⟨f, List.mem_cons_of_mem _ hf, h1, h2, h3, h4⟩
        · -- non-Attachment branch
          rename_i hnotmand1 hnotmand2 hnotatt
          split at h
          · rename_i hdef
            split at h
            · cases h
            · rename_i v hval
              rcases ih _ _ h p hp with hacc | ⟨f, hf, h1, h2, h3, h4⟩
              · rcases List.mem_append.mp hacc with hold | hnew
                · exact Or.inl hold
                · simp only [List.mem_singleton] at hnew
                  subst hnew
                  refine Or.inr ⟨field, List.mem_cons_self .., rfl, rfl, ?_, ?_⟩
                  · simpa using hdef
                  · intro habs
                    exact absurd habs (by simpa using hnotatt)
              · exact Or.inr ⟨f, List.mem_cons_of_mem _ hf, h1, h2, h3, h4⟩
          · rcases ih _ _ h p hp with hacc | ⟨f, hf, h1, h2, h3, h4⟩
            · exact Or.inl hacc
            · exact Or.inr ⟨f, List.mem_cons_of_mem _ hf, h1, h2, h3, h4⟩

/-! ### Claim theorems -/

/-- C5 counterexample: a non-mandatory `Attachment` schema field with the
submitted value `"not-a-file-object"` — a string with neither `fileName` nor
`filePath` — passes `validateCustomFields` without any MissingFileInfo error;
the raw string is stored as the validated value. -/
theorem validateCustomFields_attachment_accepts_nonobject :
    validateCustomFields [(1, JsValue.str "not-a-file-object")]
      [⟨1, "contract", "Attachment", false, none⟩] =
      .ok [(1, ⟨1, "Attachment", JsValue.str "not-a-file-object"⟩)] ∧
    (JsValue.str "not-a-file-object").get "fileName" = .undefined ∧
    (JsValue.str "not-a-file-object").get "filePath" = .undefined :=
  ⟨rfl, rfl, rfl⟩

/-- C5 (amended): for `Attachment`-typed schema fields `validateCustomFields`
performs no fileName/filePath validation at all — every entry of Attachment
type in a successful result holds the submitted value verbatim (the branch at
record.service.ts lines 494-501 stores it directly and never calls
`validateFieldValue`, whose MissingFileInfo check is thus unreachable for
Attachment fields). -/
theorem validateCustomFields_attachment_stored_verbatim
    (s : List (Nat × JsValue)) (c : List CustomField)
    (res : List (Nat × ValidatedField))
    (h : validateCustomFields s c = .ok res) :
    ∀ p ∈ res, p.2.type = "Attachment" →
      p.2.value = jsLookup s p.1 ∧ (jsLookup s p.1).truthy = true := by
  intro p hp hatt
  rcases validateFieldsGo_mem s c [] res h p hp with habs | ⟨f, _, h1, h2, _, h4⟩
  · simp at habs
  · rw [h1]
    exact h4 (h2 ▸ hatt)

/-- C5 witness: the amended theorem applied at the counterexample input. -/
theorem validateCustomFields_attachment_stored_verbatim_witness :
    validateCustomFields [(1, JsValue.str "not-a-file-object")]
      [⟨1, "contract", "Attachment", false, none⟩] =
      .ok [(1, ⟨1, "Attachment", JsValue.str "not-a-file-object"⟩)] ∧
    ∀ p ∈ [((1 : Nat), (⟨1, "Attachment", JsValue.str "not-a-file-object"⟩ : ValidatedField))],
      p.2.type = "Attachment" →
      p.2.value = jsLookup [(1, JsValue.str "not-a-file-object")] p.1 ∧
        (jsLookup [(1, JsValue.str "not-a-file-object")] p.1).truthy = true :=
  ⟨rfl, validateCustomFields_attachment_stored_verbatim
    [(1, JsValue.str "not-a-file-object")]
    [⟨1, "contract", "Attachment", false, none⟩]
    [(1, ⟨1, "Attachment", JsValue.str "not-a-file-object"⟩)] rfl⟩

/-- C7: a successful `validateCustomFields` result (1) has no key outside the
schema field ids — submitted fields unknown to the schema are dropped, (2)
omits every schema field whose submitted value is absent (`undefined`), rather
than storing null, and (3) contains an Attachment-typed entry only when a
truthy value was actually submitted for it. -/
theorem validateCustomFields_output_keys
    (s : List (Nat × JsValue)) (c : List CustomField)
    (res : List (Nat × ValidatedField))
    (h : validateCustomFields s c = .ok res) :
    (∀ p ∈ res, ∃ f ∈ c, p.1 = f.id) ∧
    (∀ f ∈ c, f.isMandatory = false → jsLookup s f.id = .undefined →
      ∀ p ∈ res, p.1 ≠ f.id) ∧
    (∀ p ∈ res, p.2.type = "Attachment" → (jsLookup s p.1).truthy = true) := by
  refine ⟨?_, ?_, ?_⟩
  · intro p hp
    rcases validateFieldsGo_mem s c [] res h p hp with habs | ⟨f, hf, h1, _⟩
    · simp at habs
    · exact ⟨f, hf, h1⟩
  · intro f _ _ habsent p hp hkey
    rcases validateFieldsGo_mem s c [] res h p hp with habs | ⟨g, _, h1, _, h3, _⟩
    · simp at habs
    · rw [← h1] at h3
      rw [hkey] at h3
      rw [habsent] at h3
      simp [JsValue.isUndef] at h3
  · intro p hp hatt
    rcases validateFieldsGo_mem s c [] res h p hp with habs | ⟨f, _, h1, h2, _, h4⟩
    · simp at habs
    · rw [h1]
      exact (h4 (h2 ▸ hatt)).2

/-- C7 witness: schema with a non-mandatory `Text Only` field 1 (absent from
the submission) and an `Attachment` field 2 (submitted); the submission also
carries an unknown key 99 which is dropped. -/
theorem validateCustomFields_output_keys_witness :
    validateCustomFields
      [(2, JsValue.obj [("fileName", JsValue.str "a.pdf"), ("filePath", JsValue.str "/a")]),
       (99, JsValue.str "junk")]
      [⟨1, "note", "Text Only", false, none⟩, ⟨2, "file", "Attachment", false, none⟩] =
      .ok [(2, ⟨2, "Attachment",
        JsValue.obj [("fileName", JsValue.str "a.pdf"), ("filePath", JsValue.str "/a")]⟩)] ∧
    (∀ p ∈ [((2 : Nat), (⟨2, "Attachment",
        JsValue.obj [("fileName", JsValue.str "a.pdf"), ("filePath", JsValue.str "/a")]⟩ : ValidatedField))],
      ∃ f ∈ [(⟨1, "note", "Text Only", false, none⟩ : CustomField),
             ⟨2, "file", "Attachment", false, none⟩], p.1 = f.id) :=
  ⟨rfl,
   (validateCustomFields_output_keys
     [(2, JsValue.obj [("fileName", JsValue.str "a.pdf"), ("filePath", JsValue.str "/a")]),
      (99, JsValue.str "junk")]
     [⟨1, "note", "Text Only", false, none⟩, ⟨2, "file", "Attachment", false, none⟩]
     _ rfl).1⟩

/-- C9: custom-field validation is deterministic — two runs of
`validateCustomFields` on the same submission and schema produce the same
outcome (the embedding is a pure function of its two arguments; the source
reads no clock, randomness or global state on this path). -/
theorem validateCustomFields_deterministic
    (s : List (Nat × JsValue)) (c : List CustomField)
    (r₁ r₂ : Except AppError (List (Nat × ValidatedField)))
    (h₁ : validateCustomFields s c = r₁)
    (h₂ : validateCustomFields s c = r₂) :
    r₁ = r₂ := h₁ ▸ h₂ ▸ rfl

/-- C9 witness: determinism at a concrete submission and schema. -/
theorem validateCustomFields_deterministic_witness :
    validateCustomFields [(1, JsValue.str "a")] [⟨1, "t", "Text Only", true, none⟩] =
      validateCustomFields [(1, JsValue.str "a")] [⟨1, "t", "Text Only", true, none⟩] :=
  validateCustomFields_deterministic _ _ _ _ rfl rfl

/-- C10: the mandatory-presence check for non-Attachment fields rejects
exactly `undefined`, `null` and the empty string; in particular submitting
`false` for a mandatory `Yes/No` field and `0` for a mandatory `Number Only`
field pass the mandatory check (and the whole validation). -/
theorem mandatory_presence_check_characterization :
    (∀ v : JsValue, hasValueNonAttachment v = false ↔
      v = .undefined ∨ v = .null ∨ v = .str "") ∧
    validateCustomFields [(1, JsValue.bool false)] [⟨1, "flag", "Yes/No", true, none⟩] =
      .ok [(1, ⟨1, "Yes/No", JsValue.bool false⟩)] ∧
    validateCustomFields [(1, JsValue.num 0)] [⟨1, "qty", "Number Only", true, none⟩] =
      .ok [(1, ⟨1, "Number Only", JsValue.num 0⟩)] := by
  refine ⟨?_, rfl, rfl⟩
  intro v
  cases v <;>
    simp [hasValueNonAttachment, JsValue.isUndef, JsValue.isNull, JsValue.isEmptyStr]

/-- C8: `processPdfFile` is a total function (it never raises); whenever the
underlying extraction fails it returns the fixed fallback shape, whose size
string is the byte size divided by 1024 and rounded half-up. -/
theorem processPdfFile_fallback_spec (file : MulterFile)
    (extraction : Except AppError PdfExtractResult)
    (h : extraction.isOk = false) :
    processPdfFile file extraction =
      { extractedText := "PDF text extraction failed"
        extractedFields :=
          [("Document Name", file.originalname),
           ("File Size", toString (jsRoundKB file.size) ++ " KB")]
        pageCount := 1 } := by
  cases extraction with
  | ok r => simp [Except.isOk, Except.toBool] at h
  | error e => rfl

/-- C8 witness: a 2048-byte file whose extraction failed yields the fallback
with the size string `2 KB`. -/
theorem processPdfFile_fallback_spec_witness :
    (Except.error (⟨500, "Failed to process PDF file"⟩ : AppError) :
      Except AppError PdfExtractResult).isOk = false ∧
    processPdfFile ⟨"invoice.pdf", 2048, "application/pdf"⟩
      (Except.error ⟨500, "Failed to process PDF file"⟩) =
      { extractedText := "PDF text extraction failed"
        extractedFields := [("Document Name", "invoice.pdf"), ("File Size", "2 KB")]
        pageCount := 1 } :=
  ⟨rfl, processPdfFile_fallback_spec ⟨"invoice.pdf", 2048, "application/pdf"⟩ _ rfl⟩

/-- C6: `createRecord` fails with `AppError(400, "Record title is required")`
for every title whose trim is empty (so for every empty or whitespace-only
title), and every successfully persisted record carries the submitted title
with leading and trailing whitespace trimmed. -/
theorem createRecord_title_spec :
    (∀ (st : ServiceState) (data : CreateRecordData)
       (extraction : Except AppError PdfExtractResult),
      jsTrim data.title = "" →
      createRecord st data extraction = .error ⟨400, "Record title is required"⟩) ∧
    (∀ (st : ServiceState) (data : CreateRecordData)
       (extraction : Except AppError PdfExtractResult)
       (st2 : ServiceState) (rec : RecordRow),
      createRecord st data extraction = .ok (st2, rec) →
      rec.title = jsTrim data.title) := by
  constructor
  · intro st data extraction h
    simp [createRecord, h]
  · intro st data extraction st2 rec h
    simp only [createRecord] at h
    split at h
    · cases h
    · split at h
      · cases h
      · split at h
        · cases h
        · split at h
          · cases h
          · cases h
            rfl

/-- C6 witness: a whitespace-only title is refused; the title `"  Foo  "` is
stored as `"Foo"`. -/
theorem createRecord_title_spec_witness :
    (jsTrim fxCreateBlank.title = "" ∧
     createRecord fxBase fxCreateBlank (Except.error ⟨500, "pdf"⟩) =
       Except.error ⟨400, "Record title is required"⟩) ∧
    (createRecord fxBase fxCreateFoo (Except.error ⟨500, "pdf"⟩) =
       Except.ok (fxFooState, fxFooRecord) ∧
     fxFooRecord.title = jsTrim fxCreateFoo.title) :=
  ⟨⟨rfl, createRecord_title_spec.1 fxBase fxCreateBlank (Except.error ⟨500, "pdf"⟩) rfl⟩,
   ⟨rfl, createRecord_title_spec.2 fxBase fxCreateFoo (Except.error ⟨500, "pdf"⟩)
      fxFooState fxFooRecord rfl⟩⟩

/-- C2 counterexample: record 1 is `approved` (not pending), yet `rejectRecord`
invoked by the unauthorized caller eve fails with the 403 authorization error,
not with `AppError(400, "Only pending records can be rejected")` — the
permission check runs before the status check, so the claimed error does not
hold regardless of caller permissions. -/
theorem rejectRecord_nonpending_unauthorized_goes_403 :
    fxRecordApproved.status ≠ RecordStatus.pending ∧
    rejectRecord fxBase 1 "eve" none id =
      .error ⟨403, "User is not authorized to reject this record"⟩ ∧
    (⟨403, "User is not authorized to reject this record"⟩ : AppError) ≠
      ⟨400, "Only pending records can be rejected"⟩ :=
  ⟨by decide, rfl, by decide⟩

/-- C2 (amended): for every record whose status is not `pending`,
`rejectRecord` always fails; a caller who passes the authorization check
(cabinet approver or `member_full` member) gets
`AppError(400, "Only pending records can be rejected")`, while an unauthorized
caller gets the 403 Forbidden error first. -/
theorem rejectRecord_nonpending_always_fails
    (st : ServiceState) (recordId : Nat) (userId : String)
    (comments : Option String) (upd : RecordRow → RecordRow)
    (record : RecordRow) (cabinet : CabinetRow)
    (hrec : findRecord st.records recordId = some record)
    (hcab : findCabinet st.cabinets record.cabinetId = some cabinet)
    (hstatus : record.status ≠ RecordStatus.pending) :
    (∃ e, rejectRecord st recordId userId comments upd = .error e) ∧
    (canReject st cabinet record.cabinetId userId = true →
      rejectRecord st recordId userId comments upd =
        .error ⟨400, "Only pending records can be rejected"⟩) := by
  have hne : (record.status != RecordStatus.pending) = true := by
    simp [bne_iff_ne, hstatus]
  by_cases hauth : canReject st cabinet record.cabinetId userId = true
  · refine ⟨⟨⟨400, "Only pending records can be rejected"⟩, ?_⟩, fun _ => ?_⟩ <;>
      simp [rejectRecord, hrec, hcab, hauth, hne]
  · have hauth2 : canReject st cabinet record.cabinetId userId = false := by
      simpa using hauth
    refine ⟨⟨⟨403, "User is not authorized to reject this record"⟩, ?_⟩, fun hc => absurd hc hauth⟩
    simp [rejectRecord, hrec, hcab, hauth2]

/-- C2 witness: eve is a cabinet approver (authorized), the record is
`approved`, and rejecting fails with the 400 pending-only error. -/
theorem rejectRecord_nonpending_always_fails_witness :
    findRecord fxBaseEveApprover.records 1 = some fxRecordApproved ∧
    findCabinet fxBaseEveApprover.cabinets fxRecordApproved.cabinetId =
      some fxCabinetEveApprover ∧
    fxRecordApproved.status ≠ RecordStatus.pending ∧
    ((∃ e, rejectRecord fxBaseEveApprover 1 "eve" none id = .error e) ∧
     (canReject fxBaseEveApprover fxCabinetEveApprover fxRecordApproved.cabinetId "eve" = true →
       rejectRecord fxBaseEveApprover 1 "eve" none id =
         .error ⟨400, "Only pending records can be rejected"⟩)) :=
  ⟨rfl, rfl, by decide,
   rejectRecord_nonpending_always_fails fxBaseEveApprover 1 "eve" none id
     fxRecordApproved fxCabinetEveApprover rfl rfl (by decide)⟩

/-- C3 counterexample: `createRecord` succeeds on a fresh state and the state
it returns holds zero `RecordVersion` rows for the created record — record
creation does not establish the at-least-one-RecordVersion invariant. -/
theorem createRecord_leaves_zero_record_versions :
    (createRecord fxBase fxCreateFoo (Except.error ⟨500, "pdf"⟩)).map
      (fun p => ((p.1.versions.filter (fun v => v.recordId == p.2.id)).length, p.2.title)) =
      Except.ok (0, "Foo") := rfl

/-- C3 (amended): `deleteVersion` on a record that currently has exactly one
`RecordVersion` fails with `AppError(400, "Cannot delete the only version of
the record")` and deletes nothing; however `createRecord` inserts no
`RecordVersion` row at all, so a newly created record has zero versions until
the first `createNewVersion` call (the claimed invariant is not established at
creation). -/
theorem deleteVersion_sole_version_guard :
    (∀ (st : ServiceState) (recordId versionId : Nat) (userId : String)
       (record : RecordRow) (cabinet : CabinetRow) (version : RecordVersionRow),
      findRecord st.records recordId = some record →
      findCabinet st.cabinets record.cabinetId = some cabinet →
      (record.creatorId = userId ∨ cabinet.createdById = userId) →
      st.versions.find? (fun v => v.id == versionId && v.recordId == recordId) =
        some version →
      (versionsFor st recordId).length = 1 →
      deleteVersion st recordId versionId userId =
        .error ⟨400, "Cannot delete the only version of the record"⟩) ∧
    (∀ (st : ServiceState) (data : CreateRecordData)
       (extraction : Except AppError PdfExtractResult)
       (st2 : ServiceState) (rec : RecordRow),
      createRecord st data extraction = .ok (st2, rec) →
      st2.versions = st.versions) := by
  constructor
  · intro st recordId versionId userId record cabinet version hrec hcab hperm hver hcount
    have hpermb : (record.creatorId != userId && cabinet.createdById != userId) = false := by
      rcases hperm with h | h <;> simp [h]
    simp [deleteVersion, hrec, hcab, hpermb, hver, hcount]
  · intro st data extraction st2 rec h
    simp only [createRecord] at h
    split at h
    · cases h
    · split at h
      · cases h
      · split at h
        · cases h
        · split at h
          · cases h
          · cases h
            cases data.pdfFile <;> rfl

/-- C3 witness: deleting the only version of record 1 fails with the guard
error; `createRecord` leaves the versions table untouched. -/
theorem deleteVersion_sole_version_guard_witness :
    (findRecord fxBaseOneVersion.records 1 = some fxRecordApproved ∧
     (versionsFor fxBaseOneVersion 1).length = 1 ∧
     deleteVersion fxBaseOneVersion 1 5 "alice" =
       .error ⟨400, "Cannot delete the only version of the record"⟩) ∧
    (createRecord fxBase fxCreateFoo (Except.error ⟨500, "pdf"⟩) =
       Except.ok (fxFooState, fxFooRecord) ∧
     fxFooState.versions = fxBase.versions) :=
  ⟨⟨rfl, rfl,
    deleteVersion_sole_version_guard.1 fxBaseOneVersion 1 5 "alice"
      fxRecordApproved fxCabinetPlain ⟨5, 1, 1, "f1", 10, "pdf", "/p1", "h1", "bob", none⟩
      rfl rfl (Or.inl rfl) rfl rfl⟩,
   ⟨rfl,
    deleteVersion_sole_version_guard.2 fxBase fxCreateFoo (Except.error ⟨500, "pdf"⟩)
      fxFooState fxFooRecord rfl⟩⟩

/-- Inversion of a successful `modifyRecord` call: the lookups and validation
necessarily succeeded, the records/versions tables are untouched, the snapshot
was appended to the other-versions table with owner `data.recordId`, and its
version number is max existing snapshot version plus one (2 when none). -/
theorem modifyRecord_ok_inv (st : ServiceState) (data : ModifyRecordData)
    (extraction : Except AppError PdfExtractResult)
    (st2 : ServiceState) (snap : RecordOtherVersionRow)
    (h : modifyRecord st data extraction = .ok (st2, snap)) :
    (∃ orig, findRecord st.records data.recordId = some orig) ∧
    (∃ cab, findCabinet st.cabinets data.cabinetId = some cab ∧
      ∃ vf, validateCustomFields data.customFields cab.customFields = .ok vf) ∧
    st.users.contains data.creatorId = true ∧
    st2.records = st.records ∧
    st2.versions = st.versions ∧
    st2.cabinets = st.cabinets ∧
    st2.users = st.users ∧
    st2.otherVersions = st.otherVersions ++ [snap] ∧
    snap.originalRecordId = data.recordId ∧
    snap.version = (match latestOtherVersionFor st.otherVersions data.recordId with
                    | none => 2
                    | some w => w.version + 1) := by
  simp only [modifyRecord] at h
  split at h
  · cases h
  · rename_i orig horig
    split at h
    · cases h
    · rename_i cab hcab
      split at h
      · cases h
      · rename_i husers
        split at h
        · cases h
        · rename_i vf hvf
          cases h
          refine ⟨⟨orig, horig⟩, ⟨cab, hcab, vf, hvf⟩, ?_, rfl, rfl, rfl, rfl, rfl, rfl, rfl⟩
          simpa using husers

/-- On a list with no snapshot for `rid`, appending one snapshot owned by
`rid` makes it the latest snapshot for `rid`. -/
theorem latestOtherVersionFor_append_fresh (old : List RecordOtherVersionRow)
    (snap : RecordOtherVersionRow) (rid : Nat)
    (hfresh : old.filter (fun v => v.originalRecordId == rid) = [])
    (hsnap : snap.originalRecordId = rid) :
    latestOtherVersionFor (old ++ [snap]) rid = some snap := by
  unfold latestOtherVersionFor foldMaxOtherRow
  rw [List.filter_append, hfresh]
  simp [List.filter, hsnap]

/-- C4: a successful `modifyRecord` leaves the records (and versions) tables
unchanged — in particular every field of the original Record row, including
its version and title, is untouched — and the created snapshot's version is
the maximum existing snapshot version plus one, defaulting to 2 when no
snapshot exists; consequently, on a record with no snapshots, two `modify`
calls produce snapshots with versions 2 and then 3. -/
theorem modifyRecord_snapshot_spec (st : ServiceState) (data : ModifyRecordData)
    (extraction : Except AppError PdfExtractResult)
    (st2 : ServiceState) (snap : RecordOtherVersionRow)
    (h : modifyRecord st data extraction = .ok (st2, snap)) :
    st2.records = st.records ∧
    st2.versions = st.versions ∧
    snap.version = (match latestOtherVersionFor st.otherVersions data.recordId with
                    | none => 2
                    | some w => w.version + 1) ∧
    (st.otherVersions.filter (fun v => v.originalRecordId == data.recordId) = [] →
      snap.version = 2 ∧
      ∃ st3 snap3, modifyRecord st2 data extraction = .ok (st3, snap3) ∧
        snap3.version = 3 ∧ st3.records = st.records) := by
  obtain ⟨⟨orig, horig⟩, ⟨cab, hcab, vf, hvf⟩, husers, hrecs, hvers, hcabs, husrs,
    hother, hown, hver⟩ := modifyRecord_ok_inv st data extraction st2 snap h
  refine ⟨hrecs, hvers, hver, ?_⟩
  intro hfresh
  have hnone : latestOtherVersionFor st.otherVersions data.recordId = none := by
    unfold latestOtherVersionFor
    rw [hfresh]
    rfl
  have hv2 : snap.version = 2 := by rw [hver, hnone]
  refine ⟨hv2, ?_⟩
  have hlatest2 : latestOtherVersionFor st2.otherVersions data.recordId = some snap := by
    rw [hother]
    exact latestOtherVersionFor_append_fresh st.otherVersions snap data.recordId hfresh hown
  cases h2 : modifyRecord st2 data extraction with
  | error e =>
    exfalso
    simp only [modifyRecord, hrecs, hcabs, husrs, horig, hcab, husers, hvf] at h2
    cases h2
  | ok p =>
    obtain ⟨st3, snap3⟩ := p
    obtain ⟨_, _, _, hrecs3, _, _, _, _, _, hver3⟩ :=
      modifyRecord_ok_inv st2 data extraction st3 snap3 h2
    refine ⟨st3, snap3, rfl, ?_, hrecs3.trans hrecs⟩
    rw [hver3, hlatest2]
    simp [hv2]

/-- C4 witness: the theorem applied at a concrete state with one record and no
snapshots — the first modify call yields a version-2 snapshot, the records
table is untouched, and the asserted second call yields version 3. -/
theorem modifyRecord_snapshot_spec_witness :
    (modifyRecord fxBase fxModify (Except.error ⟨500, "pdf"⟩)).map
      (fun p => (p.2.version, p.2.title, p.1.records.length)) =
      Except.ok (2, "Budget v2", 1) ∧
    fxBase.otherVersions.filter (fun v => v.originalRecordId == fxModify.recordId) = [] ∧
    (∀ st2 snap, modifyRecord fxBase fxModify (Except.error ⟨500, "pdf"⟩) = .ok (st2, snap) →
      st2.records = fxBase.records ∧
      st2.versions = fxBase.versions ∧
      snap.version = (match latestOtherVersionFor fxBase.otherVersions fxModify.recordId with
                      | none => 2
                      | some w => w.version + 1) ∧
      (fxBase.otherVersions.filter (fun v => v.originalRecordId == fxModify.recordId) = [] →
        snap.version = 2 ∧
        ∃ st3 snap3, modifyRecord st2 fxModify (Except.error ⟨500, "pdf"⟩) = .ok (st3, snap3) ∧
          snap3.version = 3 ∧ st3.records = fxBase.records)) :=
  ⟨rfl, rfl, fun st2 snap h =>
    modifyRecord_snapshot_spec fxBase fxModify (Except.error ⟨500, "pdf"⟩) st2 snap h⟩

/-- `List.range'` with unit step: appending the next element. -/
theorem range'_concat_unit (s n : Nat) :
    List.range' s (n + 1) = List.range' s n ++ [s + n] := by
  have h := @List.range'_concat 1 s n
  simpa using h

/-- Updating the row with a given primary key commutes with `find?` on that
key, provided the update preserves the key. -/
theorem find_updateRecordRow (recordId : Nat) (f : RecordRow → RecordRow)
    (hf : ∀ x, (f x).id = x.id) :
    ∀ (records : List RecordRow) (r : RecordRow),
    records.find? (fun x => x.id == recordId) = some r →
    (updateRecordRow records recordId f).find? (fun x => x.id == recordId) =
      some (f r) := by
  intro records
  induction records with
  | nil => intro r h; simp at h
  | cons a l ih =>
    intro r h
    by_cases ha : (a.id == recordId) = true
    · have h1 : List.find? (fun x => x.id == recordId) (a :: l) = some a :=
        List.find?_cons_of_pos l ha
      rw [h1] at h
      cases h
      unfold updateRecordRow
      simp only [List.map_cons, if_pos ha]
      have hfa : ((f a).id == recordId) = true := by rw [hf a]; exact ha
      exact List.find?_cons_of_pos _ hfa
    · have ha2 : ¬((fun x : RecordRow => x.id == recordId) a = true) := ha
      have h1 : List.find? (fun x => x.id == recordId) (a :: l) =
          List.find? (fun x => x.id == recordId) l :=
        List.find?_cons_of_neg l ha2
      rw [h1] at h
      unfold updateRecordRow
      simp only [List.map_cons, if_neg ha]
      have h2 : List.find? (fun x => x.id == recordId)
          (a :: List.map (fun r => if r.id == recordId then f r else r) l) =
          List.find? (fun x => x.id == recordId)
            (List.map (fun r => if r.id == recordId then f r else r) l) :=
        List.find?_cons_of_neg _ ha2
      rw [h2]
      exact ih r h

/-- Appending one version row owned by the record extends its filtered version
list on the right. -/
theorem versionsFor_append_own (st : ServiceState) (recordId : Nat)
    (v : RecordVersionRow) (hv : v.recordId = recordId) :
    (st.versions ++ [v]).filter (fun w => w.recordId == recordId) =
      versionsFor st recordId ++ [v] := by
  unfold versionsFor
  rw [List.filter_append]
  simp [List.filter, hv]

/-- Appending one version row owned by the record updates the latest-version
query by one fold step. -/
theorem latestVersionFor_append_own (vs : List RecordVersionRow)
    (v : RecordVersionRow) (recordId : Nat) (hv : v.recordId = recordId) :
    latestVersionFor (vs ++ [v]) recordId =
      (match latestVersionFor vs recordId with
       | none => some v
       | some w => if w.version < v.version then some v else some w) := by
  unfold latestVersionFor foldMaxRow
  rw [List.filter_append]
  simp [List.filter, hv, List.foldl_append]

/-- The run invariant for iterated `createNewVersion` calls: starting from a
state whose versions for the record are numbered `1..k` (with the latest-
version query answering `k`, or none when `k = 0`), running `datas` succeeds
and extends the numbering to `1..k+|datas|`, mirrored onto the record row. -/
theorem runNewVersions_inv (recordId : Nat) :
    ∀ (datas : List VersionData) (st : ServiceState) (r : RecordRow) (k : Nat),
    findRecord st.records recordId = some r →
    (versionsFor st recordId).map (fun v => v.version) = List.range' 1 k →
    ((latestVersionFor st.versions recordId).map (fun v => v.version) =
      if k = 0 then none else some k) →
    ∃ st2 r2, runNewVersions st recordId datas = .ok st2 ∧
      findRecord st2.records recordId = some r2 ∧
      (versionsFor st2 recordId).map (fun v => v.version) =
        List.range' 1 (k + datas.length) ∧
      ((latestVersionFor st2.versions recordId).map (fun v => v.version) =
        if k + datas.length = 0 then none else some (k + datas.length)) ∧
      (datas = [] → r2 = r) ∧
      (datas ≠ [] → r2.version = k + datas.length) := by
  intro datas
  induction datas with
  | nil =>
    intro st r k hfind hvers hlatest
    refine ⟨st, r, rfl, hfind, by simpa using hvers, by simpa using hlatest,
      fun _ => rfl, fun hne => absurd rfl hne⟩
  | cons d ds ih =>
    intro st r k hfind hvers hlatest
    have hnum : nextVersionNumber st recordId = k + 1 := by
      unfold nextVersionNumber
      cases hl : latestVersionFor st.versions recordId with
      | none =>
        rw [hl] at hlatest
        simp only [Option.map_none'] at hlatest
        by_cases hk : k = 0
        · rw [hk]
        · rw [if_neg hk] at hlatest; cases hlatest
      | some w =>
        rw [hl] at hlatest
        simp only [Option.map_some'] at hlatest
        by_cases hk : k = 0
        · rw [if_pos hk] at hlatest; cases hlatest
        · rw [if_neg hk] at hlatest
          cases hlatest
          rfl
    have hrowid : (newVersionRow st recordId d).recordId = recordId := rfl
    have hrowver : (newVersionRow st recordId d).version = k + 1 := by
      simpa [newVersionRow] using hnum
    have hfind2 : findRecord (afterNewVersion st recordId d).records recordId =
        some (mirrorVersionOnRecord d (newVersionRow st recordId d).version r) := by
      unfold afterNewVersion findRecord
      exact find_updateRecordRow recordId
        (mirrorVersionOnRecord d (newVersionRow st recordId d).version)
        (fun x => rfl) st.records r hfind
    have hvers2 : (versionsFor (afterNewVersion st recordId d) recordId).map
        (fun v => v.version) = List.range' 1 (k + 1) := by
      have : versionsFor (afterNewVersion st recordId d) recordId =
          versionsFor st recordId ++ [newVersionRow st recordId d] := by
        unfold afterNewVersion
        exact versionsFor_append_own st recordId _ hrowid
      rw [this, List.map_append, hvers, range'_concat_unit]
      simp [hrowver, Nat.add_comm]
    have hlatest2 : ((latestVersionFor (afterNewVersion st recordId d).versions
        recordId).map (fun v => v.version)) = some (k + 1) := by
      have hstep : latestVersionFor (afterNewVersion st recordId d).versions recordId =
          (match latestVersionFor st.versions recordId with
           | none => some (newVersionRow st recordId d)
           | some w => if w.version < (newVersionRow st recordId d).version then
               some (newVersionRow st recordId d) else some w) := by
        unfold afterNewVersion
        exact latestVersionFor_append_own st.versions _ recordId hrowid
      cases hl : latestVersionFor st.versions recordId with
      | none =>
        rw [hstep, hl]
        simp [hrowver]
      | some w =>
        rw [hl] at hlatest
        simp only [Option.map_some'] at hlatest
        by_cases hk : k = 0
        · rw [if_pos hk] at hlatest; cases hlatest
        · rw [if_neg hk] at hlatest
          have hw : w.version = k := by cases hlatest; rfl
          rw [hstep, hl]
          simp [hrowver, hw]
    obtain ⟨st3, r3, hrun, hfind3, hvers3, hlatest3, hnil3, hcons3⟩ :=
      ih (afterNewVersion st recordId d)
        (mirrorVersionOnRecord d (newVersionRow st recordId d).version r)
        (k + 1) hfind2 hvers2 hlatest2
    have hrunfull : runNewVersions st recordId (d :: ds) = .ok st3 := by
      simp only [runNewVersions, createNewVersion, hfind]
      exact hrun
    have harith : k + (d :: ds).length = (k + 1) + ds.length := by
      simp only [List.length_cons]
      omega
    refine ⟨st3, r3, hrunfull, hfind3, ?_, ?_, fun habs => absurd habs (by simp),
      fun _ => ?_⟩
    · rw [harith]
      exact hvers3
    · rw [harith]
      rw [hlatest3]
    · by_cases hds : ds = []
      · subst hds
        have := hnil3 rfl
        subst this
        simp [mirrorVersionOnRecord, hrowver]
      · rw [harith]
        exact hcons3 hds

/-- C1: for an existing record, `createNewVersion` assigns the new
`RecordVersion` the number (current maximum version for that record) + 1, or 1
when no versions exist, and overwrites the record row's file-descriptor
fields and version to match the new entry; hence calling it N times on a
fresh record (no versions yet) yields version numbers 1,2,...,N in call
order with the record mirroring the latest call's version. -/
theorem createNewVersion_version_numbering (st : ServiceState) (recordId : Nat)
    (r : RecordRow) (hfind : findRecord st.records recordId = some r) :
    (∀ vd, createNewVersion st recordId vd =
       .ok (afterNewVersion st recordId vd, newVersionRow st recordId vd) ∧
       (newVersionRow st recordId vd).version =
         (match latestVersionFor st.versions recordId with
          | none => 1
          | some w => w.version + 1) ∧
       findRecord (afterNewVersion st recordId vd).records recordId =
         some { r with
           filePath := .str vd.filePath
           fileName := .str vd.fileName
           fileSize := .num (vd.fileSize : Int)
           fileType := .str vd.fileType
           fileHash := .str vd.fileHash
           version := (newVersionRow st recordId vd).version
           lastModifiedBy := vd.uploadedBy }) ∧
    (versionsFor st recordId = [] → ∀ datas, ∃ st2 r2,
       runNewVersions st recordId datas = .ok st2 ∧
       (versionsFor st2 recordId).map (fun v => v.version) =
         List.range' 1 datas.length ∧
       findRecord st2.records recordId = some r2 ∧
       (datas ≠ [] → r2.version = datas.length)) := by
  constructor
  · intro vd
    refine ⟨by simp [createNewVersion, hfind], rfl, ?_⟩
    unfold afterNewVersion findRecord
    exact find_updateRecordRow recordId
      (mirrorVersionOnRecord vd (newVersionRow st recordId vd).version)
      (fun x => rfl) st.records r hfind
  · intro hfresh datas
    have hvers : (versionsFor st recordId).map (fun v => v.version) =
        List.range' 1 0 := by
      rw [hfresh]
      rfl
    have hlatest : ((latestVersionFor st.versions recordId).map
        (fun v => v.version)) = (if (0 : Nat) = 0 then none else some 0) := by
      have : latestVersionFor st.versions recordId = none := by
        unfold latestVersionFor
        unfold versionsFor at hfresh
        rw [hfresh]
        rfl
      rw [this]
      rfl
    obtain ⟨st2, r2, hrun, hfind2, hvers2, _, _, hcons⟩ :=
      runNewVersions_inv recordId datas st r 0 hfind hvers hlatest
    refine ⟨st2, r2, hrun, ?_, hfind2, ?_⟩
    · simpa using hvers2
    · intro hne
      simpa using hcons hne

/-- C1 witness: on the fresh record 1, two consecutive `createNewVersion`
calls produce version numbers `[1, 2]` with the record mirroring version 2. -/
theorem createNewVersion_version_numbering_witness :
    findRecord fxBase.records 1 = some fxRecordApproved ∧
    versionsFor fxBase 1 = [] ∧
    (∃ st2 r2, runNewVersions fxBase 1 [fxVd1, fxVd2] = .ok st2 ∧
       (versionsFor st2 1).map (fun v => v.version) = List.range' 1 2 ∧
       findRecord st2.records 1 = some r2 ∧
       ([fxVd1, fxVd2] ≠ [] → r2.version = 2)) := by
  refine ⟨rfl, rfl, ?_⟩
  have h := (createNewVersion_version_numbering fxBase 1 fxRecordApproved rfl).2
    rfl [fxVd1, fxVd2]
  simpa using h
